import Mathlib

/-!
Verification of the incremental R2 sync engine (`sync-to-r2.js`).

The JavaScript source is shallowly embedded: each JS function becomes a
Lean definition with the same name, JS exceptions become `Except JsError`,
the remote object store becomes an explicit `Store` value threaded through
the per-file loop, and the filesystem becomes an explicit tree.
-/

/-- A JavaScript `Error` value: the fields the source inspects
(`error.name`, `error.message`). -/
structure JsError where
  name : String
  message : String
deriving DecidableEq, Repr

/-- The double-quote character, written via its code point. -/
def dquote : Char := Char.ofNat 34

/-- `etag.replace(/"/g, '')` (line 75): remove every double-quote
character from the string. -/
def stripQuotes (s : String) : String :=
  String.mk (s.data.filter (fun c => c ≠ dquote))

/-- The remote store serves ETags wrapped in double quotes, as S3-compatible
stores do; the stored digest `d` is delivered as `"d"`. -/
def quoteETag (d : String) : String :=
  String.mk (dquote :: d.data ++ [dquote])

/-- Outcome of a `HeadObjectCommand` request as seen by the caller:
either a response (whose optional `ETag` field mirrors `response.ETag?`),
or a thrown error. -/
inductive HeadResult where
  | ok (etag : Option String)
  | err (e : JsError)
deriving DecidableEq, Repr

/-- `getR2FileETag` (lines 67-82): on a response, return the ETag with
quotes removed; on a thrown error named `NotFound`, return `null`
(the file does not exist in R2); re-throw every other error. -/
def getR2FileETag : HeadResult → Except JsError (Option String)
  | .ok etag => .ok (etag.map stripQuotes)
  | .err e => if e.name = "NotFound" then .ok none else .error e

/-- The three-way classification of a file (spec §3: `SyncDecision`). -/
inductive SyncDecision where
  | Unchanged
  | New
  | Modified
deriving DecidableEq, Repr

/-- JS truthiness of the nullable ETag string used at line 167
(`r2Hash ? 'Updated' : 'Uploaded'`): `null`/`undefined` and the empty
string are falsy. -/
def jsTruthy : Option String → Bool
  | none => false
  | some s => s ≠ ""

/-- The sync decision of lines 159-167: skip when `r2Hash === localHash`;
otherwise upload, logged as `Updated` (modified) when `r2Hash` is truthy
and `Uploaded` (new) when it is not. -/
def syncDecision (localHash : String) (r2Hash : Option String) : SyncDecision :=
  if r2Hash = some localHash then .Unchanged
  else if jsTruthy r2Hash then .Modified
  else .New

/-- JS `s.endsWith(suffix)`, over the character sequence. -/
def strEndsWith (s suffix : String) : Bool :=
  suffix.data.isSuffixOf s.data

/-- ASCII lowercasing, as the `i` regex flag applies it to the
ASCII-only extension alternatives. -/
def strToLower (s : String) : String :=
  String.mk (s.data.map Char.toLower)

/-- The extension filter of line 95, `file.name.match(/\.(svg|png|json)$/i)`:
the name ends with `.svg`, `.png` or `.json`, compared case-insensitively. -/
def matchesAllowlist (name : String) : Bool :=
  strEndsWith (strToLower name) ".svg" || strEndsWith (strToLower name) ".png" ||
    strEndsWith (strToLower name) ".json"

/-- The content-type mapping of lines 110-113: a case-sensitive
`endsWith` chain with the generic binary type as fallback. -/
def contentTypeOf (localPath : String) : String :=
  if strEndsWith localPath ".svg" then "image/svg+xml"
  else if strEndsWith localPath ".png" then "image/png"
  else if strEndsWith localPath ".json" then "application/json"
  else "application/octet-stream"

/-- The metadata attached to the `PutObjectCommand` of lines 115-121. -/
structure PutCommand where
  key : String
  contentType : String
  cacheControl : String
deriving DecidableEq, Repr

/-- The `PutObjectCommand` parameters `uploadFile` builds for a local
path and remote key (lines 110-121). -/
def uploadCommand (localPath r2Key : String) : PutCommand :=
  { key := r2Key
    contentType := contentTypeOf localPath
    cacheControl := "public, max-age=31536000, immutable" }

/-- The unit table of `formatBytes` (line 210). -/
def sizes : List String := ["Bytes", "KB", "MB", "GB"]

/-- JS array indexing `sizes[i]`: out-of-range access yields `undefined`,
which string concatenation renders as the string `undefined`. -/
def jsIndex (l : List String) (i : Nat) : String :=
  (l.get? i).getD "undefined"

/-- `Math.round` on the (non-negative) values `formatBytes` produces:
round half away from zero, i.e. `⌊q + 1/2⌋`. -/
def jsRound (q : ℚ) : ℤ := ⌊q + 1 / 2⌋

/-- The rendering `formatBytes` returns: the literal `0 Bytes`, or a
numeric value concatenated with a unit string. -/
inductive ByteRender where
  | zeroBytes
  | scaled (value : ℚ) (unit : String)
deriving DecidableEq, Repr

/-- `formatBytes` (lines 207-213), with `Math.log`/`Math.floor` modelled
in exact arithmetic: `Math.floor(Math.log bytes / Math.log 1024)` is the
floor of the base-1024 logarithm, i.e. `Nat.log 1024 bytes`. -/
def formatBytes (bytes : Nat) : ByteRender :=
  if bytes = 0 then .zeroBytes
  else
    let i := Nat.log 1024 bytes
    .scaled ((jsRound ((bytes : ℚ) / 1024 ^ i * 100) : ℚ) / 100) (jsIndex sizes i)

/-- Remote network operations the sync issues, identified by remote key:
`HeadObjectCommand` and `PutObjectCommand`. -/
inductive NetOp where
  | head (key : String)
  | put (key : String)
deriving DecidableEq, Repr

/-- The remote bucket: each key maps to the stored digest of the object
at that key, or `none` when no object exists there. -/
def Store : Type := String → Option String

/-- The store after an object with content digest `v` is written at `k`. -/
def storeUpdate (s : Store) (k v : String) : Store :=
  fun k' => if k' = k then some v else s k'

/-- The per-file environment for one run: the file's path data, the
outcome of reading and hashing it (`getFileHash`, which can throw), its
size (`statSync(localPath).size`), and injected transport failures for
the head lookup and the upload, modelling network errors. -/
structure FileSpec where
  relativePath : String
  hashResult : Except JsError String
  size : Nat
  headFailure : Option JsError
  uploadFailure : Option JsError
deriving Repr

/-- Line 149: the remote key derived from the relative path. -/
def r2Key (f : FileSpec) : String := "football_logos/" ++ f.relativePath

/-- What the `HeadObjectCommand` for `f`'s key returns against store `s`:
an injected transport failure if any; otherwise a response carrying the
quoted stored digest when the object exists, and a thrown `NotFound`
error when it does not. A successful response always carries an ETag,
as S3-compatible stores guarantee. -/
def headResultOf (s : Store) (f : FileSpec) : HeadResult :=
  match f.headFailure with
  | some e => .err e
  | none =>
    match s (r2Key f) with
    | some d => .ok (some (quoteETag d))
    | none => .err { name := "NotFound", message := "NotFound" }

/-- `uploadFile` (lines 105-125): streams the file to the store and
returns `stats.size` on success; a transport error is thrown. -/
def uploadFile (f : FileSpec) : Except JsError Nat :=
  match f.uploadFailure with
  | some e => .error e
  | none => .ok f.size

/-- The mutable counters of `syncToR2` (lines 141-144):
`uploaded`, `skipped`, `totalBytes` and the `errors` array of
`{ file, error }` records. -/
structure SyncState where
  uploaded : Nat
  skipped : Nat
  totalBytes : Nat
  errors : List (String × String)
deriving DecidableEq, Repr

/-- The full accumulator of a run: the summary counters, the evolving
remote store, and the trace of network calls issued so far. -/
structure RunAcc where
  st : SyncState
  store : Store
  ops : List NetOp

/-- Append one `{ file, error: message }` record (line 170). -/
def addError (st : SyncState) (path msg : String) : SyncState :=
  { st with errors := st.errors ++ [(path, msg)] }

/-- The loop body of `syncToR2` (lines 147-173) for one file: hash the
local file, head the remote key, skip when the digests agree, otherwise
upload; any thrown error is caught and recorded against the file. An
upload writes the server-computed content digest — the MD5 the store
derives from the uploaded bytes, equal to `getFileHash`'s digest of the
same bytes (spec §4.3) — at the file's key. -/
def processFile (f : FileSpec) (acc : RunAcc) : RunAcc :=
  match f.hashResult with
  | .error e => { acc with st := addError acc.st f.relativePath e.message }
  | .ok localHash =>
    let ops1 := acc.ops ++ [NetOp.head (r2Key f)]
    match getR2FileETag (headResultOf acc.store f) with
    | .error e => { acc with st := addError acc.st f.relativePath e.message, ops := ops1 }
    | .ok r2Hash =>
      if r2Hash = some localHash then
        { acc with st := { acc.st with skipped := acc.st.skipped + 1 }, ops := ops1 }
      else
        let ops2 := ops1 ++ [NetOp.put (r2Key f)]
        match uploadFile f with
        | .error e => { acc with st := addError acc.st f.relativePath e.message, ops := ops2 }
        | .ok bytes =>
          { st := { acc.st with
                      uploaded := acc.st.uploaded + 1
                      totalBytes := acc.st.totalBytes + bytes }
            store := storeUpdate acc.store (r2Key f)
              (match f.hashResult with | .ok h => h | .error _ => "")
            ops := ops2 }

/-- The initial accumulator: zeroed counters, the given remote store,
no network calls issued. -/
def initAcc (store : Store) : RunAcc :=
  { st := { uploaded := 0, skipped := 0, totalBytes := 0, errors := [] }
    store := store
    ops := [] }

/-- The `for` loop of `syncToR2` over the scanned files (lines 147-173). -/
def syncFiles (files : List FileSpec) (store : Store) : RunAcc :=
  files.foldl (fun acc f => processFile f acc) (initAcc store)

/-- A directory tree as `readdir` sees it: plain files, readable
directories with their entries, and directories whose `readdir` throws
(permission error, unreadable entry, broken subtree). -/
inductive FsTree where
  | file (name : String)
  | dir (name : String) (entries : List FsTree)
  | baddir (name : String) (e : JsError)
deriving Repr

/-- The name of a directory entry (`file.name`). -/
def FsTree.entryName : FsTree → String
  | .file n => n
  | .dir n _ => n
  | .baddir n _ => n

/-- `join(dir, file.name)` (line 89). -/
def pjoin (dir name : String) : String := dir ++ "/" ++ name

mutual
/-- `getFiles` (lines 85-102): `readdir` the directory — throwing for an
unreadable one — then walk its entries. -/
def getFiles (dirPath : String) (t : FsTree) (fileList : List String) :
    Except JsError (List String) :=
  match t with
  | .baddir _ e => .error e
  | .file _ => .error { name := "ENOTDIR", message := "not a directory" }
  | .dir _ entries => getFilesLoop dirPath entries fileList

/-- The `for` loop of `getFiles` (lines 88-99): recurse into
subdirectories, collect files whose names match the allowlist; a thrown
error propagates and aborts the whole walk. -/
def getFilesLoop (dirPath : String) (entries : List FsTree) (fileList : List String) :
    Except JsError (List String) :=
  match entries with
  | [] => .ok fileList
  | t :: ts =>
    match t with
    | .file name =>
      let fileList' :=
        if matchesAllowlist name then fileList ++ [pjoin dirPath name] else fileList
      getFilesLoop dirPath ts fileList'
    | .dir name es =>
      match getFiles (pjoin dirPath name) (.dir name es) fileList with
      | .error e => .error e
      | .ok fl => getFilesLoop dirPath ts fl
    | .baddir name e' =>
      match getFiles (pjoin dirPath name) (.baddir name e') fileList with
      | .error e => .error e
      | .ok fl => getFilesLoop dirPath ts fl
end

mutual
/-- Whether the tree contains a directory whose `readdir` throws. -/
def containsBad : FsTree → Bool
  | .file _ => false
  | .baddir _ _ => true
  | .dir _ es => containsBadList es

/-- `containsBad` over a list of entries. -/
def containsBadList : List FsTree → Bool
  | [] => false
  | t :: ts => containsBad t || containsBadList ts
end

/-- The environment variables the script reads (lines 21-25); `none`
models an unset variable. -/
structure Env where
  cloudflareAccountId : Option String
  r2AccessKeyId : Option String
  r2SecretAccessKey : Option String
  r2BucketName : Option String
  r2PublicUrl : Option String
deriving DecidableEq, Repr

/-- JS `a || b` on an env value: an unset or empty (falsy) variable
yields the default. -/
def jsOr (v : Option String) (d : String) : String :=
  match v with
  | none => d
  | some s => if s = "" then d else s

/-- The `config` object (lines 20-26). -/
structure Config where
  accountId : Option String
  accessKeyId : Option String
  secretAccessKey : Option String
  bucketName : String
  publicUrl : Option String
deriving DecidableEq, Repr

/-- Building `config` from the environment (lines 20-26):
`bucketName` falls back to `football-logos`. -/
def mkConfig (e : Env) : Config :=
  { accountId := e.cloudflareAccountId
    accessKeyId := e.r2AccessKeyId
    secretAccessKey := e.r2SecretAccessKey
    bucketName := jsOr e.r2BucketName "football-logos"
    publicUrl := e.r2PublicUrl }

/-- The keys of the `required` array in `validateConfig` (line 30). -/
inductive ConfigKey where
  | accountId
  | accessKeyId
  | secretAccessKey
  | bucketName
deriving DecidableEq, Repr

/-- The `required` array (line 30). -/
def required : List ConfigKey :=
  [.accountId, .accessKeyId, .secretAccessKey, .bucketName]

/-- The falsiness test `!config[key]` (line 31): unset, or the empty
string. -/
def keyFalsy (c : Config) : ConfigKey → Bool
  | .accountId => c.accountId.isNone || c.accountId = some ""
  | .accessKeyId => c.accessKeyId.isNone || c.accessKeyId = some ""
  | .secretAccessKey => c.secretAccessKey.isNone || c.secretAccessKey = some ""
  | .bucketName => c.bucketName = ""

/-- `missing` (line 31): the required keys whose config value is falsy. -/
def missingKeys (c : Config) : List ConfigKey :=
  required.filter (keyFalsy c)

/-- The env-var name printed for a missing key: the nested conditional
of lines 36-39. -/
def envVarName : ConfigKey → String
  | .accountId => "CLOUDFLARE_ACCOUNT_ID"
  | .accessKeyId => "R2_ACCESS_KEY_ID"
  | .secretAccessKey => "R2_SECRET_ACCESS_KEY"
  | .bucketName => "R2_BUCKET_NAME"

/-- `validateConfig` (lines 29-46): if any required value is falsy,
report the env-var name of each missing one and exit 1. -/
def validateConfig (c : Config) : Except (List String) Unit :=
  if (missingKeys c).length > 0 then .error ((missingKeys c).map envVarName)
  else .ok ()

/-- What a whole invocation of the script produces: a fatal
configuration error before any client is built or file touched
(lines 29-48), a fatal scan/sync error caught at lines 200-203, or a
completed run with its summary, final store and network trace. -/
inductive ProgramResult where
  | configError (missingVars : List String)
  | fatal (e : JsError)
  | completed (acc : RunAcc)

/-- The directory scanned, `join(__dirname, 'football_logos')` (line 133). -/
def logosDir : String := "football_logos"

/-- The whole script: `validateConfig()` runs first (line 48) and exits
before any network client is used; then `syncToR2` scans — a scan error
reaches the catch at line 200 and exits 1 — and runs the per-file loop.
`mkSpec` maps each scanned path to its per-file environment. -/
def runProgram (env : Env) (root : FsTree) (mkSpec : String → FileSpec)
    (store : Store) : ProgramResult :=
  match validateConfig (mkConfig env) with
  | .error names => .configError names
  | .ok _ =>
    match getFiles logosDir root [] with
    | .error e => .fatal e
    | .ok paths => .completed (syncFiles (paths.map mkSpec) store)

/-- The process exit status of each outcome: `process.exit(1)` at
lines 44 and 202; implicit 0 on completion. -/
def exitCode : ProgramResult → Nat
  | .configError _ => 1
  | .fatal _ => 1
  | .completed _ => 0

/-- The network calls an invocation issued: none before the sync loop
starts (config errors and scan errors happen with no client traffic). -/
def resultOps : ProgramResult → List NetOp
  | .configError _ => []
  | .fatal _ => []
  | .completed acc => acc.ops

/-- The terminal state a file reaches in the loop: recorded as skipped,
recorded as uploaded with some byte count, or failed with a message. -/
inductive Outcome where
  | skippedO
  | uploadedO (bytes : Nat)
  | failedO (msg : String)
deriving DecidableEq, Repr

/-- Classify what the loop body does to file `f` against store `s`:
mirrors the branch structure of `processFile`. -/
def fileOutcome (s : Store) (f : FileSpec) : Outcome :=
  match f.hashResult with
  | .error e => .failedO e.message
  | .ok localHash =>
    match getR2FileETag (headResultOf s f) with
    | .error e => .failedO e.message
    | .ok r2Hash =>
      if r2Hash = some localHash then .skippedO
      else
        match uploadFile f with
        | .error e => .failedO e.message
        | .ok bytes => .uploadedO bytes

/-- Whether the file's pipeline fails. -/
def Outcome.isFailedO : Outcome → Bool
  | .failedO _ => true
  | _ => false

/-- Whether the file is uploaded. -/
def Outcome.isUploadedO : Outcome → Bool
  | .uploadedO _ => true
  | _ => false

/-- Whether the file is skipped. -/
def Outcome.isSkippedO : Outcome → Bool
  | .skippedO => true
  | _ => false

/-- The error message a failing file records (junk for non-failures). -/
def failureMessage (s : Store) (f : FileSpec) : String :=
  match fileOutcome s f with
  | .failedO m => m
  | _ => ""

/-- The counter update an outcome applies to the summary state. -/
def pushOutcome (o : Outcome) (path : String) (st : SyncState) : SyncState :=
  match o with
  | .skippedO => { st with skipped := st.skipped + 1 }
  | .uploadedO b => { st with uploaded := st.uploaded + 1, totalBytes := st.totalBytes + b }
  | .failedO m => addError st path m

/-- The store after the loop body processed `f`: updated at `f`'s key on
a successful upload, untouched otherwise. -/
def storeAfter (s : Store) (f : FileSpec) : Store :=
  match fileOutcome s f with
  | .uploadedO _ =>
    storeUpdate s (r2Key f) (match f.hashResult with | .ok h => h | .error _ => "")
  | _ => s

/-- The store after the loop processed a list of files. -/
def runStore (s : Store) : List FileSpec → Store
  | [] => s
  | f :: fs => runStore (storeAfter s f) fs

/-- How many of the files are uploaded, judged against store `s`. -/
def countUploaded (s : Store) : List FileSpec → Nat
  | [] => 0
  | f :: fs => (if (fileOutcome s f).isUploadedO then 1 else 0) + countUploaded s fs

/-- How many of the files are skipped, judged against store `s`. -/
def countSkipped (s : Store) : List FileSpec → Nat
  | [] => 0
  | f :: fs => (if (fileOutcome s f).isSkippedO then 1 else 0) + countSkipped s fs

/-- The bytes one file contributes to the total: its upload's return
value if it uploads, zero otherwise. -/
def outBytes (s : Store) (f : FileSpec) : Nat :=
  match fileOutcome s f with
  | .uploadedO b => b
  | _ => 0

/-- The bytes a list of files contributes to the total. -/
def bytesOf (s : Store) : List FileSpec → Nat
  | [] => 0
  | f :: fs => outBytes s f + bytesOf s fs

/-- The failure records a list of files contributes, in order. -/
def errorsOf (s : Store) : List FileSpec → List (String × String)
  | [] => []
  | f :: fs =>
    (match fileOutcome s f with
     | .failedO m => [(f.relativePath, m)]
     | _ => []) ++ errorsOf s fs

/-- The digest a head lookup against store `s` would yield for key `k`:
the stored digest's quoted form with the quotes stripped back off. -/
def headDigest (s : Store) (k : String) : Option String :=
  (s k).map (fun d => stripQuotes (quoteETag d))

/-- The string contains no double-quote character (true of every
hex-encoded MD5 digest). -/
def noQuotesB (h : String) : Bool :=
  h.data.all (fun c => c ≠ dquote)

/-- A file whose pipeline cannot fail: its hash was computed (and is a
quote-free digest), and neither the head lookup nor the upload has an
injected transport failure. -/
def happyB (f : FileSpec) : Bool :=
  (match f.hashResult with
   | .ok h => noQuotesB h
   | .error _ => false)
  && f.headFailure.isNone && f.uploadFailure.isNone

/-- The loop body's effect on the summary counters is `pushOutcome` of
the file's outcome against the accumulator's store. -/
theorem processFile_st (f : FileSpec) (acc : RunAcc) :
    (processFile f acc).st = pushOutcome (fileOutcome acc.store f) f.relativePath acc.st := by
  unfold processFile fileOutcome pushOutcome
  cases hh : f.hashResult with
  | error e => simp
  | ok h =>
    cases he : getR2FileETag (headResultOf acc.store f) with
    | error e => simp
    | ok r =>
      by_cases hr : r = some h
      · simp [hr]
      · cases hu : uploadFile f with
        | error e => simp [hr, hu]
        | ok b => simp [hr, hu]

/-- The loop body's effect on the store is `storeAfter`. -/
theorem processFile_store (f : FileSpec) (acc : RunAcc) :
    (processFile f acc).store = storeAfter acc.store f := by
  unfold processFile storeAfter fileOutcome
  cases hh : f.hashResult with
  | error e => simp
  | ok h =>
    cases he : getR2FileETag (headResultOf acc.store f) with
    | error e => simp
    | ok r =>
      by_cases hr : r = some h
      · simp [hr]
      · cases hu : uploadFile f with
        | error e => simp [hr, hu]
        | ok b => simp [hr, hu]

/-- A file's outcome only reads the store at the file's own key. -/
theorem fileOutcome_congr {s s' : Store} (f : FileSpec)
    (h : s (r2Key f) = s' (r2Key f)) : fileOutcome s f = fileOutcome s' f := by
  simp only [fileOutcome, headResultOf, h]

/-- `storeAfter` leaves every other key untouched. -/
theorem storeAfter_ne {s : Store} {f : FileSpec} {k : String}
    (h : k ≠ r2Key f) : storeAfter s f k = s k := by
  unfold storeAfter
  cases fileOutcome s f with
  | uploadedO b => simp [storeUpdate, h]
  | skippedO => rfl
  | failedO m => rfl

/-- Congruence for `countUploaded` under stores agreeing on the files'
keys. -/
theorem countUploaded_congr {s s' : Store} {fs : List FileSpec}
    (h : ∀ f ∈ fs, s (r2Key f) = s' (r2Key f)) :
    countUploaded s fs = countUploaded s' fs := by
  induction fs with
  | nil => rfl
  | cons f fs ih =>
    unfold countUploaded
    rw [fileOutcome_congr f (h f (by simp)), ih (fun g hg => h g (by simp [hg]))]

/-- Congruence for `countSkipped`. -/
theorem countSkipped_congr {s s' : Store} {fs : List FileSpec}
    (h : ∀ f ∈ fs, s (r2Key f) = s' (r2Key f)) :
    countSkipped s fs = countSkipped s' fs := by
  induction fs with
  | nil => rfl
  | cons f fs ih =>
    unfold countSkipped
    rw [fileOutcome_congr f (h f (by simp)), ih (fun g hg => h g (by simp [hg]))]

/-- Congruence for `bytesOf`. -/
theorem bytesOf_congr {s s' : Store} {fs : List FileSpec}
    (h : ∀ f ∈ fs, s (r2Key f) = s' (r2Key f)) :
    bytesOf s fs = bytesOf s' fs := by
  induction fs with
  | nil => rfl
  | cons f fs ih =>
    unfold bytesOf outBytes
    rw [fileOutcome_congr f (h f (by simp)), ih (fun g hg => h g (by simp [hg]))]

/-- Congruence for `errorsOf`. -/
theorem errorsOf_congr {s s' : Store} {fs : List FileSpec}
    (h : ∀ f ∈ fs, s (r2Key f) = s' (r2Key f)) :
    errorsOf s fs = errorsOf s' fs := by
  induction fs with
  | nil => rfl
  | cons f fs ih =>
    unfold errorsOf
    rw [fileOutcome_congr f (h f (by simp)), ih (fun g hg => h g (by simp [hg]))]

/-- The per-file loop, characterized file by file against the initial
store: when the files' remote keys are pairwise distinct, each file's
outcome is decided by the store as it was before the run (earlier
uploads touch other keys only), so the final counters are sums of
per-file contributions and the final store is `runStore`. -/
theorem syncFold_master (files : List FileSpec) (acc : RunAcc)
    (hkeys : (files.map r2Key).Nodup) :
    (files.foldl (fun a f => processFile f a) acc).st.uploaded
        = acc.st.uploaded + countUploaded acc.store files ∧
    (files.foldl (fun a f => processFile f a) acc).st.skipped
        = acc.st.skipped + countSkipped acc.store files ∧
    (files.foldl (fun a f => processFile f a) acc).st.totalBytes
        = acc.st.totalBytes + bytesOf acc.store files ∧
    (files.foldl (fun a f => processFile f a) acc).st.errors
        = acc.st.errors ++ errorsOf acc.store files ∧
    (files.foldl (fun a f => processFile f a) acc).store
        = runStore acc.store files := by
  induction files generalizing acc with
  | nil => simp [countUploaded, countSkipped, bytesOf, errorsOf, runStore]
  | cons f fs ih =>
    have hnod : (fs.map r2Key).Nodup := (List.nodup_cons.mp hkeys).2
    have hnotin : r2Key f ∉ fs.map r2Key := (List.nodup_cons.mp hkeys).1
    have hagree : ∀ g ∈ fs, (processFile f acc).store (r2Key g) = acc.store (r2Key g) := by
      intro g hg
      rw [processFile_store]
      exact storeAfter_ne (fun hEq => hnotin (hEq ▸ List.mem_map_of_mem r2Key hg))
    have ihx := ih (processFile f acc) hnod
    rw [List.foldl_cons]
    rcases ihx with ⟨h1, h2, h3, h4, h5⟩
    rw [h1, h2, h3, h4, h5]
    rw [countUploaded_congr hagree, countSkipped_congr hagree,
      bytesOf_congr hagree, errorsOf_congr hagree]
    rw [processFile_st, processFile_store]
    refine ⟨?_, ?_, ?_, ?_, ?_⟩
    · cases ho : fileOutcome acc.store f <;>
        simp [pushOutcome, ho, addError, countUploaded, Outcome.isUploadedO] <;> omega
    · cases ho : fileOutcome acc.store f <;>
        simp [pushOutcome, ho, addError, countSkipped, Outcome.isSkippedO] <;> omega
    · cases ho : fileOutcome acc.store f <;>
        simp [pushOutcome, ho, addError, bytesOf, outBytes] <;> omega
    · cases ho : fileOutcome acc.store f <;>
        simp [pushOutcome, ho, addError, errorsOf]
    · simp [runStore]

/-- Each file's loop iteration moves exactly one file to a terminal
state: the three counters together grow by one. -/
theorem processFile_counterSum (f : FileSpec) (acc : RunAcc) :
    (processFile f acc).st.uploaded + (processFile f acc).st.skipped
      + (processFile f acc).st.errors.length
    = acc.st.uploaded + acc.st.skipped + acc.st.errors.length + 1 := by
  rw [processFile_st]
  cases fileOutcome acc.store f <;> simp [pushOutcome, addError] <;> omega

/-- The loop over any file list grows the three counters by its length. -/
theorem syncFold_counterSum (files : List FileSpec) (acc : RunAcc) :
    (files.foldl (fun a f => processFile f a) acc).st.uploaded
      + (files.foldl (fun a f => processFile f a) acc).st.skipped
      + (files.foldl (fun a f => processFile f a) acc).st.errors.length
    = acc.st.uploaded + acc.st.skipped + acc.st.errors.length + files.length := by
  induction files generalizing acc with
  | nil => simp
  | cons f fs ih =>
    rw [List.foldl_cons, ih (processFile f acc), processFile_counterSum]
    simp only [List.length_cons]
    omega

/-- C9: every scanned file is counted in exactly one of the three outcome
categories: at the end of the run, uploaded + skipped + number of failure
records equals the number of files processed. -/
theorem C9_outcome_partition (files : List FileSpec) (store : Store) :
    (syncFiles files store).st.uploaded + (syncFiles files store).st.skipped
      + (syncFiles files store).st.errors.length = files.length := by
  unfold syncFiles
  rw [syncFold_counterSum]
  simp [initAcc]

/-- The skip branch is taken exactly when the stripped remote tag equals
the local digest, with no truthiness caveat: equality is tested first. -/
theorem syncDecision_unchanged_iff (h : String) (r : Option String) :
    syncDecision h r = .Unchanged ↔ r = some h := by
  unfold syncDecision
  by_cases hr : r = some h
  · simp [hr]
  · simp only [hr, if_false]
    by_cases ht : jsTruthy r = true <;> simp [ht]

/-- C1: the sync decision is a pure function of the local digest and the
remote stored digest — `Unchanged` iff they are equal (and then the file
is only head-checked, never uploaded), `New` iff the remote state is
absent, `Modified` otherwise; in the `New` and `Modified` cases the file
is uploaded. (The remote tag, when present, is a digest and hence
nonempty.) -/
theorem C1_sync_decision (h : String) (r : Option String) (f : FileSpec) (acc : RunAcc)
    (hne : r ≠ some "")
    (hh : f.hashResult = .ok h)
    (he : getR2FileETag (headResultOf acc.store f) = .ok r) :
    (syncDecision h r = .Unchanged ↔ r = some h) ∧
    (syncDecision h r = .New ↔ r = none) ∧
    (syncDecision h r = .Modified ↔ (r ≠ none ∧ r ≠ some h)) ∧
    (syncDecision h r = .Unchanged →
      processFile f acc =
        { acc with st := { acc.st with skipped := acc.st.skipped + 1 },
                   ops := acc.ops ++ [NetOp.head (r2Key f)] }) ∧
    (syncDecision h r ≠ .Unchanged → f.uploadFailure = none →
      processFile f acc =
        { st := { acc.st with uploaded := acc.st.uploaded + 1,
                              totalBytes := acc.st.totalBytes + f.size }
          store := storeUpdate acc.store (r2Key f) h
          ops := acc.ops ++ [NetOp.head (r2Key f), NetOp.put (r2Key f)] }) := by
  have hiff := syncDecision_unchanged_iff h r
  refine ⟨hiff, ?_, ?_, ?_, ?_⟩
  · cases r with
    | none => simp [syncDecision, jsTruthy]
    | some s =>
      have hs : s ≠ "" := fun hs => hne (hs ▸ rfl)
      by_cases hsh : s = h
      · simp [syncDecision, hsh]
      · simp [syncDecision, hsh, jsTruthy, hs]
  · cases r with
    | none => simp [syncDecision, jsTruthy]
    | some s =>
      have hs : s ≠ "" := fun hs => hne (hs ▸ rfl)
      by_cases hsh : s = h
      · simp [syncDecision, hsh]
      · simp [syncDecision, hsh, jsTruthy, hs]
  · intro hd
    have hr : r = some h := hiff.mp hd
    simp [processFile, hh, he, hr]
  · intro hd hu
    have hr : r ≠ some h := fun hc => hd (hiff.mpr hc)
    simp [processFile, hh, he, hr, uploadFile, hu]

/-- Witness for C1 at a concrete new file: local digest `abc`, remote
state absent. -/
theorem C1_sync_decision_witness :
    ((none : Option String) ≠ some "") ∧
    ((⟨"a.svg", .ok "abc", 7, none, none⟩ : FileSpec).hashResult = .ok "abc") ∧
    (getR2FileETag (headResultOf (initAcc (fun _ => none)).store
        ⟨"a.svg", .ok "abc", 7, none, none⟩) = .ok none) ∧
    ((syncDecision "abc" none = .Unchanged ↔ (none : Option String) = some "abc") ∧
     (syncDecision "abc" none = .New ↔ (none : Option String) = none) ∧
     (syncDecision "abc" none = .Modified ↔
        ((none : Option String) ≠ none ∧ (none : Option String) ≠ some "abc")) ∧
     (syncDecision "abc" none = .Unchanged →
       processFile ⟨"a.svg", .ok "abc", 7, none, none⟩ (initAcc (fun _ => none)) =
         { initAcc (fun _ => none) with
             st := { (initAcc (fun _ => none)).st with
                       skipped := (initAcc (fun _ => none)).st.skipped + 1 }
             ops := (initAcc (fun _ => none)).ops
               ++ [NetOp.head (r2Key ⟨"a.svg", .ok "abc", 7, none, none⟩)] }) ∧
     (syncDecision "abc" none ≠ .Unchanged →
        (⟨"a.svg", .ok "abc", 7, none, none⟩ : FileSpec).uploadFailure = none →
       processFile ⟨"a.svg", .ok "abc", 7, none, none⟩ (initAcc (fun _ => none)) =
         { st := { (initAcc (fun _ => none)).st with
                     uploaded := (initAcc (fun _ => none)).st.uploaded + 1
                     totalBytes := (initAcc (fun _ => none)).st.totalBytes
                       + (⟨"a.svg", .ok "abc", 7, none, none⟩ : FileSpec).size }
           store := storeUpdate (initAcc (fun _ => none)).store
             (r2Key ⟨"a.svg", .ok "abc", 7, none, none⟩) "abc"
           ops := (initAcc (fun _ => none)).ops
             ++ [NetOp.head (r2Key ⟨"a.svg", .ok "abc", 7, none, none⟩),
                 NetOp.put (r2Key ⟨"a.svg", .ok "abc", 7, none, none⟩)] })) :=
  ⟨by simp, rfl, rfl,
    C1_sync_decision "abc" none ⟨"a.svg", .ok "abc", 7, none, none⟩
      (initAcc (fun _ => none)) (by simp) rfl rfl⟩

/-- C3: the resolver returns absence exactly for a `NotFound` error;
every other lookup failure propagates, and a resolve error is recorded
as a per-file failure, not as absence; a found tag is quote-stripped. -/
theorem C3_resolver (hr : HeadResult) (hwf : hr ≠ .ok none) :
    (getR2FileETag hr = .ok none ↔ ∃ e, hr = .err e ∧ e.name = "NotFound") ∧
    (∀ e, hr = .err e → e.name ≠ "NotFound" → getR2FileETag hr = .error e) ∧
    (∀ t, hr = .ok (some t) → getR2FileETag hr = .ok (some (stripQuotes t))) ∧
    (∀ (f : FileSpec) (acc : RunAcc) (e : JsError) (h : String),
      f.hashResult = .ok h →
      getR2FileETag (headResultOf acc.store f) = .error e →
      (processFile f acc).st.errors = acc.st.errors ++ [(f.relativePath, e.message)] ∧
      (processFile f acc).st.uploaded = acc.st.uploaded ∧
      (processFile f acc).st.skipped = acc.st.skipped ∧
      (processFile f acc).st.totalBytes = acc.st.totalBytes) := by
  refine ⟨?_, ?_, ?_, ?_⟩
  · cases hr with
    | ok etag =>
      cases etag with
      | none => exact absurd rfl hwf
      | some t => simp [getR2FileETag]
    | err e =>
      by_cases hn : e.name = "NotFound"
      · simp [getR2FileETag, hn]
      · simp [getR2FileETag, hn]
  · intro e he hn
    subst he
    simp [getR2FileETag, hn]
  · intro t ht
    subst ht
    simp [getR2FileETag]
  · intro f acc e h hh he
    simp [processFile, hh, he, addError]

/-- Witness for C3 at a concrete access-denied error. -/
theorem C3_resolver_witness :
    (HeadResult.err { name := "AccessDenied", message := "denied" } ≠ .ok none) ∧
    ((getR2FileETag (.err { name := "AccessDenied", message := "denied" }) = .ok none ↔
        ∃ e, HeadResult.err { name := "AccessDenied", message := "denied" } = .err e ∧
          e.name = "NotFound") ∧
     (∀ e, HeadResult.err { name := "AccessDenied", message := "denied" } = .err e →
        e.name ≠ "NotFound" →
        getR2FileETag (.err { name := "AccessDenied", message := "denied" }) = .error e) ∧
     (∀ t, HeadResult.err { name := "AccessDenied", message := "denied" } = .ok (some t) →
        getR2FileETag (.err { name := "AccessDenied", message := "denied" })
          = .ok (some (stripQuotes t))) ∧
     (∀ (f : FileSpec) (acc : RunAcc) (e : JsError) (h : String),
        f.hashResult = .ok h →
        getR2FileETag (headResultOf acc.store f) = .error e →
        (processFile f acc).st.errors = acc.st.errors ++ [(f.relativePath, e.message)] ∧
        (processFile f acc).st.uploaded = acc.st.uploaded ∧
        (processFile f acc).st.skipped = acc.st.skipped ∧
        (processFile f acc).st.totalBytes = acc.st.totalBytes)) :=
  ⟨by simp, C3_resolver (.err { name := "AccessDenied", message := "denied" }) (by simp)⟩

/-- C10: the extension allowlist is case-insensitive while the
content-type mapping is case-sensitive: an uppercase or mixed-case
variant of an allowed extension passes the scanner's filter, yet maps to
the generic binary content type in the upload command. -/
theorem C10_case_sensitivity (name : String)
    (hlow : strEndsWith (strToLower name) ".svg" = true ∨
      strEndsWith (strToLower name) ".png" = true ∨
      strEndsWith (strToLower name) ".json" = true)
    (hsvg : strEndsWith name ".svg" = false)
    (hpng : strEndsWith name ".png" = false)
    (hjson : strEndsWith name ".json" = false) :
    matchesAllowlist name = true ∧
    contentTypeOf name = "application/octet-stream" ∧
    (uploadCommand name (pjoin "football_logos" name)).contentType
      = "application/octet-stream" ∧
    (∀ dirPath acc, getFiles dirPath (.dir "d" [.file name]) acc
        = .ok (acc ++ [pjoin dirPath name])) := by
  have hm : matchesAllowlist name = true := by
    unfold matchesAllowlist
    rcases hlow with h | h | h <;> simp [h]
  have hct : contentTypeOf name = "application/octet-stream" := by
    simp [contentTypeOf, hsvg, hpng, hjson]
  refine ⟨hm, hct, ?_, ?_⟩
  · simp [uploadCommand, hct]
  · intro dirPath acc
    simp [getFiles, getFilesLoop, hm]

/-- Witness for C10 at the concrete name `Arsenal.SVG`. -/
theorem C10_case_sensitivity_witness :
    (strEndsWith (strToLower "Arsenal.SVG") ".svg" = true ∨
      strEndsWith (strToLower "Arsenal.SVG") ".png" = true ∨
      strEndsWith (strToLower "Arsenal.SVG") ".json" = true) ∧
    strEndsWith "Arsenal.SVG" ".svg" = false ∧
    strEndsWith "Arsenal.SVG" ".png" = false ∧
    strEndsWith "Arsenal.SVG" ".json" = false ∧
    (matchesAllowlist "Arsenal.SVG" = true ∧
     contentTypeOf "Arsenal.SVG" = "application/octet-stream" ∧
     (uploadCommand "Arsenal.SVG" (pjoin "football_logos" "Arsenal.SVG")).contentType
       = "application/octet-stream" ∧
     (∀ dirPath acc, getFiles dirPath (.dir "d" [.file "Arsenal.SVG"]) acc
         = .ok (acc ++ [pjoin dirPath "Arsenal.SVG"]))) :=
  ⟨Or.inl (by decide), by decide, by decide, by decide,
    C10_case_sensitivity "Arsenal.SVG" (Or.inl (by decide))
      (by decide) (by decide) (by decide)⟩

/-- C8 counterexample: at a total of `1024 ^ 4` bytes (one binary
terabyte), the unit index is 4, past the end of the unit table, and the
rendering's unit is the string `undefined`, not a member of
{Bytes, KB, MB, GB} — the claim fails for this non-negative total. -/
theorem C8_counterexample :
    formatBytes (1024 ^ 4) = .scaled 1 "undefined" ∧
    "undefined" ∉ ["Bytes", "KB", "MB", "GB"] := by
  have hlog : Nat.log 1024 (1024 ^ 4) = 4 :=
    Nat.log_pow (by norm_num : (1 : ℕ) < 1024) 4
  constructor
  · have hne : (1024 : ℕ) ^ 4 ≠ 0 := by norm_num
    simp only [formatBytes, hne, if_false]
    rw [hlog]
    have hv : ((1024 ^ 4 : ℕ) : ℚ) / 1024 ^ 4 * 100 = 100 := by norm_num
    rw [hv]
    have hr : jsRound 100 = 100 := by
      unfold jsRound
      rw [Int.floor_eq_iff]
      norm_num
    rw [hr]
    norm_num [jsIndex, sizes]
  · decide

/-- C8 as amended: for totals `0 < n < 1024 ^ 4` the rendering divides
by `1024 ^ i` with `i` the floor of the base-1024 logarithm
(`1024 ^ i ≤ n < 1024 ^ (i+1)`), rounds to two decimals, and draws its
unit from {Bytes, KB, MB, GB}; zero renders as `0 Bytes`; at
`1024 ^ 4` and beyond the unit index leaves the table. -/
theorem C8_amended (n : Nat) (h0 : 0 < n) (h4 : n < 1024 ^ 4) :
    1024 ^ Nat.log 1024 n ≤ n ∧ n < 1024 ^ (Nat.log 1024 n + 1) ∧
    formatBytes n = .scaled
      ((jsRound ((n : ℚ) / 1024 ^ Nat.log 1024 n * 100) : ℚ) / 100)
      (jsIndex sizes (Nat.log 1024 n)) ∧
    jsIndex sizes (Nat.log 1024 n) ∈ ["Bytes", "KB", "MB", "GB"] ∧
    formatBytes 0 = .zeroBytes := by
  have hn : n ≠ 0 := Nat.pos_iff_ne_zero.mp h0
  have hlt : Nat.log 1024 n < 4 := Nat.log_lt_of_lt_pow hn h4
  refine ⟨Nat.pow_log_le_self 1024 hn, Nat.lt_pow_succ_log_self (by norm_num) n,
    ?_, ?_, ?_⟩
  · simp [formatBytes, hn]
  · set i := Nat.log 1024 n with hi
    interval_cases i <;> simp [jsIndex, sizes]
  · simp [formatBytes]

/-- Witness for the amended C8 at the concrete total 2048 (`2 KB`). -/
theorem C8_amended_witness :
    0 < 2048 ∧ 2048 < 1024 ^ 4 ∧
    (1024 ^ Nat.log 1024 2048 ≤ 2048 ∧ 2048 < 1024 ^ (Nat.log 1024 2048 + 1) ∧
     formatBytes 2048 = .scaled
       ((jsRound ((2048 : ℚ) / 1024 ^ Nat.log 1024 2048 * 100) : ℚ) / 100)
       (jsIndex sizes (Nat.log 1024 2048)) ∧
     jsIndex sizes (Nat.log 1024 2048) ∈ ["Bytes", "KB", "MB", "GB"] ∧
     formatBytes 0 = .zeroBytes) :=
  ⟨by norm_num, by norm_num, C8_amended 2048 (by norm_num) (by norm_num)⟩

/-- Per file list, the three outcome tallies partition its length. -/
theorem countSum_eq_length (s : Store) (l : List FileSpec) :
    countUploaded s l + countSkipped s l + (errorsOf s l).length = l.length := by
  induction l with
  | nil => simp [countUploaded, countSkipped, errorsOf]
  | cons f fs ih =>
    simp only [countUploaded, countSkipped, errorsOf, List.length_cons, List.length_append]
    cases fileOutcome s f <;> simp [Outcome.isUploadedO, Outcome.isSkippedO] <;> omega

/-- `errorsOf` distributes over append. -/
theorem errorsOf_append (s : Store) (l1 l2 : List FileSpec) :
    errorsOf s (l1 ++ l2) = errorsOf s l1 ++ errorsOf s l2 := by
  induction l1 with
  | nil => simp [errorsOf]
  | cons f fs ih => simp [errorsOf, ih]

/-- Files that do not fail contribute no failure records. -/
theorem errorsOf_nil_of_ok (s : Store) (l : List FileSpec)
    (h : ∀ f ∈ l, (fileOutcome s f).isFailedO = false) :
    errorsOf s l = [] := by
  induction l with
  | nil => rfl
  | cons f fs ih =>
    have hf := h f (by simp)
    have ht := ih (fun g hg => h g (by simp [hg]))
    cases ho : fileOutcome s f <;> simp [errorsOf, ho, ht]
    · rw [ho] at hf
      simp [Outcome.isFailedO] at hf

/-- `bytesOf` distributes over append. -/
theorem bytesOf_append (s : Store) (l1 l2 : List FileSpec) :
    bytesOf s (l1 ++ l2) = bytesOf s l1 + bytesOf s l2 := by
  induction l1 with
  | nil => simp [bytesOf]
  | cons f fs ih => simp [bytesOf, ih]; omega

/-- C4: when exactly one file's pipeline fails, the run still takes every
file to a terminal state: the summary holds exactly one failure record,
naming that file and its error message, N−1 successes (uploaded or
skipped), and the failing file contributes nothing to the byte total. -/
theorem C4_failure_isolation (pre post : List FileSpec) (bad : FileSpec) (store : Store)
    (hkeys : ((pre ++ bad :: post).map r2Key).Nodup)
    (hbad : (fileOutcome store bad).isFailedO = true)
    (hpre : ∀ f ∈ pre, (fileOutcome store f).isFailedO = false)
    (hpost : ∀ f ∈ post, (fileOutcome store f).isFailedO = false) :
    (syncFiles (pre ++ bad :: post) store).st.errors
      = [(bad.relativePath, failureMessage store bad)] ∧
    (syncFiles (pre ++ bad :: post) store).st.uploaded
      + (syncFiles (pre ++ bad :: post) store).st.skipped
      = pre.length + post.length ∧
    (syncFiles (pre ++ bad :: post) store).st.totalBytes
      = bytesOf store pre + bytesOf store post := by
  obtain ⟨m, hm⟩ : ∃ m, fileOutcome store bad = .failedO m := by
    cases ho : fileOutcome store bad <;> simp [ho, Outcome.isFailedO] at hbad ⊢
  obtain ⟨h1, h2, h3, h4, -⟩ := syncFold_master (pre ++ bad :: post) (initAcc store) hkeys
  have hini : (initAcc store).store = store := rfl
  rw [hini] at h1 h2 h3 h4
  have herr : errorsOf store (pre ++ bad :: post)
      = [(bad.relativePath, failureMessage store bad)] := by
    rw [errorsOf_append, errorsOf_nil_of_ok store pre hpre]
    simp [errorsOf, hm, errorsOf_nil_of_ok store post hpost, failureMessage]
  refine ⟨?_, ?_, ?_⟩
  · unfold syncFiles
    rw [h4, herr]
    simp [initAcc]
  · have hsum := countSum_eq_length store (pre ++ bad :: post)
    rw [herr] at hsum
    unfold syncFiles
    rw [h1, h2]
    have hu0 : (initAcc store).st.uploaded = 0 := rfl
    have hs0 : (initAcc store).st.skipped = 0 := rfl
    rw [hu0, hs0]
    simp only [List.length_append, List.length_cons, List.length_singleton,
      List.length_nil] at hsum
    omega
  · unfold syncFiles
    rw [h3, bytesOf_append]
    simp [initAcc, bytesOf, outBytes, hm]

/-- Witness for C4: three concrete files, the middle one with an
injected upload transport failure, against an empty remote store. -/
theorem C4_failure_isolation_witness :
    (([(⟨"a.svg", .ok "h1", 3, none, none⟩ : FileSpec)] ++
        (⟨"b.svg", .ok "h2", 4, none, some ⟨"Error", "socket hang up"⟩⟩ : FileSpec) ::
        [⟨"c.svg", .ok "h3", 5, none, none⟩]).map r2Key).Nodup ∧
    (fileOutcome (fun _ => none)
        ⟨"b.svg", .ok "h2", 4, none, some ⟨"Error", "socket hang up"⟩⟩).isFailedO = true ∧
    (syncFiles ([(⟨"a.svg", .ok "h1", 3, none, none⟩ : FileSpec)] ++
        (⟨"b.svg", .ok "h2", 4, none, some ⟨"Error", "socket hang up"⟩⟩ : FileSpec) ::
        [⟨"c.svg", .ok "h3", 5, none, none⟩]) (fun _ => none)).st.errors
      = [("b.svg", failureMessage (fun _ => none)
            ⟨"b.svg", .ok "h2", 4, none, some ⟨"Error", "socket hang up"⟩⟩)] ∧
    (syncFiles ([(⟨"a.svg", .ok "h1", 3, none, none⟩ : FileSpec)] ++
        (⟨"b.svg", .ok "h2", 4, none, some ⟨"Error", "socket hang up"⟩⟩ : FileSpec) ::
        [⟨"c.svg", .ok "h3", 5, none, none⟩]) (fun _ => none)).st.uploaded
      + (syncFiles ([(⟨"a.svg", .ok "h1", 3, none, none⟩ : FileSpec)] ++
        (⟨"b.svg", .ok "h2", 4, none, some ⟨"Error", "socket hang up"⟩⟩ : FileSpec) ::
        [⟨"c.svg", .ok "h3", 5, none, none⟩]) (fun _ => none)).st.skipped = 2 ∧
    (syncFiles ([(⟨"a.svg", .ok "h1", 3, none, none⟩ : FileSpec)] ++
        (⟨"b.svg", .ok "h2", 4, none, some ⟨"Error", "socket hang up"⟩⟩ : FileSpec) ::
        [⟨"c.svg", .ok "h3", 5, none, none⟩]) (fun _ => none)).st.totalBytes
      = bytesOf (fun _ => none) [⟨"a.svg", .ok "h1", 3, none, none⟩]
        + bytesOf (fun _ => none) [⟨"c.svg", .ok "h3", 5, none, none⟩] := by
  have h := C4_failure_isolation
    ([⟨"a.svg", .ok "h1", 3, none, none⟩] : List FileSpec)
    ([⟨"c.svg", .ok "h3", 5, none, none⟩] : List FileSpec)
    (⟨"b.svg", .ok "h2", 4, none, some ⟨"Error", "socket hang up"⟩⟩ : FileSpec)
    (fun _ => none)
    (by simp [r2Key]) (by rfl)
    (by intro f hf; simp only [List.mem_singleton] at hf; subst hf; rfl)
    (by intro f hf; simp only [List.mem_singleton] at hf; subst hf; rfl)
  exact ⟨by simp [r2Key], by rfl, h.1, h.2.1, h.2.2⟩

/-- C7: the reported byte total is the sum of the per-file
contributions; a file the decision engine classifies `Unchanged` is
skipped, contributes zero bytes, and its iteration issues only the head
lookup (no put, no content transfer); a file classified `New` or
`Modified` whose upload succeeds contributes exactly its size. -/
theorem C7_byte_accounting (files : List FileSpec) (store : Store)
    (hkeys : (files.map r2Key).Nodup) :
    (syncFiles files store).st.totalBytes = bytesOf store files ∧
    (∀ (f : FileSpec) (h : String) (r : Option String), f.hashResult = .ok h →
       getR2FileETag (headResultOf store f) = .ok r →
       syncDecision h r = .Unchanged →
       fileOutcome store f = .skippedO ∧ outBytes store f = 0) ∧
    (∀ (f : FileSpec) (h : String) (r : Option String), f.hashResult = .ok h →
       getR2FileETag (headResultOf store f) = .ok r →
       syncDecision h r ≠ .Unchanged → f.uploadFailure = none →
       fileOutcome store f = .uploadedO f.size ∧ outBytes store f = f.size) ∧
    (∀ (f : FileSpec) (acc : RunAcc) (h : String) (r : Option String),
       f.hashResult = .ok h →
       getR2FileETag (headResultOf acc.store f) = .ok r →
       syncDecision h r = .Unchanged →
       (processFile f acc).ops = acc.ops ++ [NetOp.head (r2Key f)]) := by
  obtain ⟨-, -, h3, -, -⟩ := syncFold_master files (initAcc store) hkeys
  have hini : (initAcc store).store = store := rfl
  rw [hini] at h3
  refine ⟨?_, ?_, ?_, ?_⟩
  · unfold syncFiles
    rw [h3]
    simp [initAcc]
  · intro f h r hh he hd
    have hr : r = some h := (syncDecision_unchanged_iff h r).mp hd
    have ho : fileOutcome store f = .skippedO := by
      simp [fileOutcome, hh, he, hr]
    exact ⟨ho, by simp [outBytes, ho]⟩
  · intro f h r hh he hd hu
    have hr : r ≠ some h := fun hc => hd ((syncDecision_unchanged_iff h r).mpr hc)
    have ho : fileOutcome store f = .uploadedO f.size := by
      simp [fileOutcome, hh, he, hr, uploadFile, hu]
    exact ⟨ho, by simp [outBytes, ho]⟩
  · intro f acc h r hh he hd
    have hr : r = some h := (syncDecision_unchanged_iff h r).mp hd
    simp [processFile, hh, he, hr]

/-- Witness for C7: one file already stored unchanged, one new file,
against a store holding the first file's digest. -/
theorem C7_byte_accounting_witness :
    (([⟨"a.svg", .ok "h1", 3, none, none⟩,
       ⟨"b.svg", .ok "h2", 4, none, none⟩] : List FileSpec).map r2Key).Nodup ∧
    ((syncFiles [⟨"a.svg", .ok "h1", 3, none, none⟩, ⟨"b.svg", .ok "h2", 4, none, none⟩]
        (fun k => if k = "football_logos/a.svg" then some "h1" else none)).st.totalBytes
      = bytesOf (fun k => if k = "football_logos/a.svg" then some "h1" else none)
          [⟨"a.svg", .ok "h1", 3, none, none⟩, ⟨"b.svg", .ok "h2", 4, none, none⟩] ∧
     (∀ (f : FileSpec) (h : String) (r : Option String), f.hashResult = .ok h →
        getR2FileETag (headResultOf
          (fun k => if k = "football_logos/a.svg" then some "h1" else none) f) = .ok r →
        syncDecision h r = .Unchanged →
        fileOutcome (fun k => if k = "football_logos/a.svg" then some "h1" else none) f
            = .skippedO ∧
          outBytes (fun k => if k = "football_logos/a.svg" then some "h1" else none) f = 0) ∧
     (∀ (f : FileSpec) (h : String) (r : Option String), f.hashResult = .ok h →
        getR2FileETag (headResultOf
          (fun k => if k = "football_logos/a.svg" then some "h1" else none) f) = .ok r →
        syncDecision h r ≠ .Unchanged → f.uploadFailure = none →
        fileOutcome (fun k => if k = "football_logos/a.svg" then some "h1" else none) f
            = .uploadedO f.size ∧
          outBytes (fun k => if k = "football_logos/a.svg" then some "h1" else none) f
            = f.size) ∧
     (∀ (f : FileSpec) (acc : RunAcc) (h : String) (r : Option String),
        f.hashResult = .ok h →
        getR2FileETag (headResultOf acc.store f) = .ok r →
        syncDecision h r = .Unchanged →
        (processFile f acc).ops = acc.ops ++ [NetOp.head (r2Key f)])) :=
  ⟨by simp [r2Key],
   C7_byte_accounting
     ([⟨"a.svg", .ok "h1", 3, none, none⟩, ⟨"b.svg", .ok "h2", 4, none, none⟩] : List FileSpec)
     (fun k => if k = "football_logos/a.svg" then some "h1" else none)
     (by simp [r2Key])⟩

/-- Stripping the store's quote decoration recovers a quote-free digest. -/
theorem stripQuotes_quoteETag (h : String) (hq : noQuotesB h = true) :
    stripQuotes (quoteETag h) = h := by
  cases h with
  | mk l =>
    simp only [noQuotesB, List.all_eq_true, decide_eq_true_eq] at hq
    simp only [stripQuotes, quoteETag]
    congr 1
    simp [List.filter_cons, List.filter_append, List.filter_eq_self]
    exact hq

/-- Unpacking `happyB`. -/
theorem happyB_spec (f : FileSpec) (hf : happyB f = true) :
    (∃ h, f.hashResult = .ok h ∧ noQuotesB h = true) ∧
    f.headFailure = none ∧ f.uploadFailure = none := by
  unfold happyB at hf
  rw [Bool.and_eq_true, Bool.and_eq_true] at hf
  obtain ⟨⟨hm, hhd⟩, hup⟩ := hf
  refine ⟨?_, Option.isNone_iff_eq_none.mp hhd, Option.isNone_iff_eq_none.mp hup⟩
  cases hh : f.hashResult with
  | error e => rw [hh] at hm; exact absurd hm (by simp)
  | ok h => rw [hh] at hm; exact ⟨h, rfl, hm⟩

/-- A run over files whose keys all differ from `k` leaves `k` alone. -/
theorem runStore_preserve (s : Store) (l : List FileSpec) (k : String)
    (h : ∀ g ∈ l, r2Key g ≠ k) : runStore s l k = s k := by
  induction l generalizing s with
  | nil => rfl
  | cons f fs ih =>
    simp only [runStore]
    rw [ih (storeAfter s f) (fun g hg => h g (List.mem_cons_of_mem _ hg))]
    exact storeAfter_ne (fun heq => h f (by simp) heq.symm)

/-- After the loop body processed a happy file, a head lookup at its key
yields exactly its local digest: an upload stores the digest, and a skip
presupposes the stored tag already stripped to it. -/
theorem storeAfter_headDigest_self (s : Store) (f : FileSpec) (h : String)
    (hf : happyB f = true) (hhash : f.hashResult = .ok h) :
    headDigest (storeAfter s f) (r2Key f) = some h := by
  obtain ⟨⟨h', hh', hq'⟩, hhead, hup⟩ := happyB_spec f hf
  have hq : noQuotesB h = true := by
    rw [hhash] at hh'
    obtain rfl : h = h' := by injection hh'
    exact hq'
  unfold storeAfter fileOutcome headResultOf
  rw [hhash, hhead]
  cases hsk : s (r2Key f) with
  | none =>
    simp [getR2FileETag, uploadFile, hup, headDigest, storeUpdate, hhash,
      stripQuotes_quoteETag h hq]
  | some d =>
    by_cases hd : stripQuotes (quoteETag d) = h
    · simp [getR2FileETag, hd, headDigest, hsk]
    · simp [getR2FileETag, hd, uploadFile, hup, headDigest, storeUpdate, hhash,
        stripQuotes_quoteETag h hq]

/-- A happy file whose key's head digest equals its local digest is
skipped. -/
theorem fileOutcome_skipped_of_headDigest (s : Store) (f : FileSpec) (h : String)
    (hf : happyB f = true) (hhash : f.hashResult = .ok h)
    (hd : headDigest s (r2Key f) = some h) :
    fileOutcome s f = .skippedO := by
  obtain ⟨-, hhead, -⟩ := happyB_spec f hf
  unfold fileOutcome headResultOf
  rw [hhash, hhead]
  cases hsk : s (r2Key f) with
  | none => simp [headDigest, hsk] at hd
  | some d =>
    have hstrip : stripQuotes (quoteETag d) = h := by
      simpa [headDigest, hsk] using hd
    simp [getR2FileETag, hstrip]

/-- After a run over happy files with distinct keys, a head lookup at
each file's key yields that file's local digest. -/
theorem runStore_headDigest (l : List FileSpec) (s : Store)
    (hkeys : (l.map r2Key).Nodup) (hl : ∀ f ∈ l, happyB f = true) :
    ∀ f ∈ l, ∀ h, f.hashResult = .ok h →
      headDigest (runStore s l) (r2Key f) = some h := by
  induction l generalizing s with
  | nil => simp
  | cons f0 fs ih =>
    intro f hf h hhash
    simp only [runStore]
    rcases List.mem_cons.mp hf with rfl | hmem
    · have hpres : runStore (storeAfter s f) fs (r2Key f) = storeAfter s f (r2Key f) :=
        runStore_preserve (storeAfter s f) fs (r2Key f) (fun g hg heq =>
          (List.nodup_cons.mp hkeys).1 (heq ▸ List.mem_map_of_mem r2Key hg))
      have hself := storeAfter_headDigest_self s f h (hl f (by simp)) hhash
      unfold headDigest at hself ⊢
      rw [hpres]
      exact hself
    · exact ih (storeAfter s f0) (List.nodup_cons.mp hkeys).2
        (fun g hg => hl g (by simp [hg])) f hmem h hhash

/-- When every file is skipped, the tallies degenerate. -/
theorem counts_all_skipped (s : Store) (l : List FileSpec)
    (h : ∀ f ∈ l, fileOutcome s f = .skippedO) :
    countUploaded s l = 0 ∧ countSkipped s l = l.length ∧
    bytesOf s l = 0 ∧ errorsOf s l = [] := by
  induction l with
  | nil => simp [countUploaded, countSkipped, bytesOf, errorsOf]
  | cons f fs ih =>
    have hf := h f (by simp)
    obtain ⟨i1, i2, i3, i4⟩ := ih (fun g hg => h g (by simp [hg]))
    refine ⟨?_, ?_, ?_, ?_⟩
    · simp [countUploaded, hf, Outcome.isUploadedO, i1]
    · simp [countSkipped, hf, Outcome.isSkippedO, i2]
      omega
    · simp [bytesOf, outBytes, hf, i3]
    · simp [errorsOf, hf, i4]

/-- The run summary and final store of `syncFiles`, per file against the
initial store, for pairwise distinct keys. -/
theorem syncFiles_spec (files : List FileSpec) (store : Store)
    (hkeys : (files.map r2Key).Nodup) :
    (syncFiles files store).st.uploaded = countUploaded store files ∧
    (syncFiles files store).st.skipped = countSkipped store files ∧
    (syncFiles files store).st.totalBytes = bytesOf store files ∧
    (syncFiles files store).st.errors = errorsOf store files ∧
    (syncFiles files store).store = runStore store files := by
  obtain ⟨h1, h2, h3, h4, h5⟩ := syncFold_master files (initAcc store) hkeys
  have hini : (initAcc store).store = store := rfl
  rw [hini] at h1 h2 h3 h4 h5
  unfold syncFiles
  rw [h1, h2, h3, h4, h5]
  simp [initAcc]

/-- C2: running the sync twice with no local changes uploads zero files
the second time: after the first run the store's head digest at every
file's key equals the file's local digest, so the second run skips every
file, transfers zero bytes and records no failures — from any initial
store state, so a re-run after partial completion also converges. -/
theorem C2_idempotent (files : List FileSpec) (store : Store)
    (hkeys : (files.map r2Key).Nodup)
    (hhappy : ∀ f ∈ files, happyB f = true) :
    (∀ f ∈ files, ∀ h, f.hashResult = .ok h →
        headDigest (syncFiles files store).store (r2Key f) = some h) ∧
    (syncFiles files (syncFiles files store).store).st.uploaded = 0 ∧
    (syncFiles files (syncFiles files store).store).st.totalBytes = 0 ∧
    (syncFiles files (syncFiles files store).store).st.skipped = files.length ∧
    (syncFiles files (syncFiles files store).store).st.errors = [] := by
  have hstore1 : (syncFiles files store).store = runStore store files :=
    (syncFiles_spec files store hkeys).2.2.2.2
  have hkey : ∀ f ∈ files, ∀ h, f.hashResult = .ok h →
      headDigest (syncFiles files store).store (r2Key f) = some h := by
    rw [hstore1]
    exact runStore_headDigest files store hkeys hhappy
  have hallskip : ∀ f ∈ files, fileOutcome (syncFiles files store).store f = .skippedO := by
    intro f hf
    obtain ⟨⟨h, hh, -⟩, -, -⟩ := happyB_spec f (hhappy f hf)
    exact fileOutcome_skipped_of_headDigest _ f h (hhappy f hf) hh (hkey f hf h hh)
  obtain ⟨g1, g2, g3, g4, -⟩ := syncFiles_spec files (syncFiles files store).store hkeys
  obtain ⟨c1, c2, c3, c4⟩ := counts_all_skipped (syncFiles files store).store files hallskip
  exact ⟨hkey, by rw [g1, c1], by rw [g3, c3], by rw [g2, c2], by rw [g4, c4]⟩

/-- Witness for C2: two fresh files synced twice from an empty store. -/
theorem C2_idempotent_witness :
    (([⟨"a.svg", .ok "h1", 3, none, none⟩,
       ⟨"b.svg", .ok "h2", 4, none, none⟩] : List FileSpec).map r2Key).Nodup ∧
    (∀ f ∈ ([⟨"a.svg", .ok "h1", 3, none, none⟩,
       ⟨"b.svg", .ok "h2", 4, none, none⟩] : List FileSpec), happyB f = true) ∧
    ((∀ f ∈ ([⟨"a.svg", .ok "h1", 3, none, none⟩,
         ⟨"b.svg", .ok "h2", 4, none, none⟩] : List FileSpec), ∀ h, f.hashResult = .ok h →
        headDigest (syncFiles [⟨"a.svg", .ok "h1", 3, none, none⟩,
          ⟨"b.svg", .ok "h2", 4, none, none⟩] (fun _ => none)).store (r2Key f) = some h) ∧
     (syncFiles [⟨"a.svg", .ok "h1", 3, none, none⟩, ⟨"b.svg", .ok "h2", 4, none, none⟩]
        (syncFiles [⟨"a.svg", .ok "h1", 3, none, none⟩, ⟨"b.svg", .ok "h2", 4, none, none⟩]
          (fun _ => none)).store).st.uploaded = 0 ∧
     (syncFiles [⟨"a.svg", .ok "h1", 3, none, none⟩, ⟨"b.svg", .ok "h2", 4, none, none⟩]
        (syncFiles [⟨"a.svg", .ok "h1", 3, none, none⟩, ⟨"b.svg", .ok "h2", 4, none, none⟩]
          (fun _ => none)).store).st.totalBytes = 0 ∧
     (syncFiles [⟨"a.svg", .ok "h1", 3, none, none⟩, ⟨"b.svg", .ok "h2", 4, none, none⟩]
        (syncFiles [⟨"a.svg", .ok "h1", 3, none, none⟩, ⟨"b.svg", .ok "h2", 4, none, none⟩]
          (fun _ => none)).store).st.skipped
       = ([⟨"a.svg", .ok "h1", 3, none, none⟩,
           ⟨"b.svg", .ok "h2", 4, none, none⟩] : List FileSpec).length ∧
     (syncFiles [⟨"a.svg", .ok "h1", 3, none, none⟩, ⟨"b.svg", .ok "h2", 4, none, none⟩]
        (syncFiles [⟨"a.svg", .ok "h1", 3, none, none⟩, ⟨"b.svg", .ok "h2", 4, none, none⟩]
          (fun _ => none)).store).st.errors = []) :=
  ⟨by simp [r2Key], by decide,
   C2_idempotent
     ([⟨"a.svg", .ok "h1", 3, none, none⟩, ⟨"b.svg", .ok "h2", 4, none, none⟩] : List FileSpec)
     (fun _ => none) (by simp [r2Key]) (by decide)⟩

/-- `envVarName` is injective: the four names are pairwise distinct. -/
theorem envVarName_inj (a b : ConfigKey) (h : envVarName a = envVarName b) : a = b := by
  cases a <;> cases b <;> simp [envVarName] at h ⊢

/-- Every key is required. -/
theorem mem_required (k : ConfigKey) : k ∈ required := by
  cases k <;> simp [required]

/-- C6: with any required credential value missing, the invocation stops
at `validateConfig`: the result is a configuration error that enumerates
exactly the env-var names of the falsy required values, the process
exits 1, and no network call and no file processing happens — the
outcome carries no sync summary and an empty network trace. -/
theorem C6_config_fatal (env : Env) (root : FsTree) (mkSpec : String → FileSpec)
    (store : Store) (hmiss : missingKeys (mkConfig env) ≠ []) :
    runProgram env root mkSpec store
      = .configError ((missingKeys (mkConfig env)).map envVarName) ∧
    (∀ k : ConfigKey,
      envVarName k ∈ (missingKeys (mkConfig env)).map envVarName ↔
        keyFalsy (mkConfig env) k = true) ∧
    exitCode (runProgram env root mkSpec store) = 1 ∧
    resultOps (runProgram env root mkSpec store) = [] := by
  have hv : validateConfig (mkConfig env)
      = .error ((missingKeys (mkConfig env)).map envVarName) := by
    unfold validateConfig
    rw [if_pos (List.length_pos.mpr hmiss)]
  have hrun : runProgram env root mkSpec store
      = .configError ((missingKeys (mkConfig env)).map envVarName) := by
    unfold runProgram
    rw [hv]
  refine ⟨hrun, ?_, ?_, ?_⟩
  · intro k
    constructor
    · intro hk
      obtain ⟨k', hk', heq⟩ := List.mem_map.mp hk
      obtain rfl := envVarName_inj k' k heq
      exact (List.mem_filter.mp hk').2
    · intro hk
      exact List.mem_map.mpr ⟨k, List.mem_filter.mpr ⟨mem_required k, hk⟩, rfl⟩
  · rw [hrun]; rfl
  · rw [hrun]; rfl

/-- Witness for C6: an environment missing only the account id. -/
theorem C6_config_fatal_witness :
    missingKeys (mkConfig ⟨none, some "key", some "secret", some "football-logos", none⟩)
      ≠ [] ∧
    (runProgram ⟨none, some "key", some "secret", some "football-logos", none⟩
        (FsTree.dir "football_logos" []) (fun p => ⟨p, .ok "h", 0, none, none⟩)
        (fun _ => none)
      = .configError ((missingKeys
          (mkConfig ⟨none, some "key", some "secret", some "football-logos", none⟩)).map
            envVarName) ∧
     (∀ k : ConfigKey,
       envVarName k ∈ (missingKeys
           (mkConfig ⟨none, some "key", some "secret", some "football-logos", none⟩)).map
             envVarName ↔
         keyFalsy (mkConfig ⟨none, some "key", some "secret", some "football-logos", none⟩) k
           = true) ∧
     exitCode (runProgram ⟨none, some "key", some "secret", some "football-logos", none⟩
        (FsTree.dir "football_logos" []) (fun p => ⟨p, .ok "h", 0, none, none⟩)
        (fun _ => none)) = 1 ∧
     resultOps (runProgram ⟨none, some "key", some "secret", some "football-logos", none⟩
        (FsTree.dir "football_logos" []) (fun p => ⟨p, .ok "h", 0, none, none⟩)
        (fun _ => none)) = []) :=
  ⟨by decide,
   C6_config_fatal ⟨none, some "key", some "secret", some "football-logos", none⟩
     (FsTree.dir "football_logos" []) (fun p => ⟨p, .ok "h", 0, none, none⟩)
     (fun _ => none) (by decide)⟩

mutual
/-- A tree containing an unreadable directory makes the whole scan
throw: no partial file list is returned. -/
theorem getFiles_bad (t : FsTree) (p : String) (acc : List String)
    (h : containsBad t = true) : ∃ e, getFiles p t acc = .error e :=
  match t with
  | .file _ => by simp [containsBad] at h
  | .baddir _ e => ⟨e, rfl⟩
  | .dir n es => by
      have h' : containsBadList es = true := by simpa [containsBad] using h
      simpa [getFiles] using getFilesLoop_bad es p acc h'

/-- The scan loop over entries containing an unreadable directory
throws. -/
theorem getFilesLoop_bad (es : List FsTree) (p : String) (acc : List String)
    (h : containsBadList es = true) : ∃ e, getFilesLoop p es acc = .error e :=
  match es with
  | [] => by simp [containsBadList] at h
  | t :: ts => by
      rcases t with n | ⟨n, es'⟩ | ⟨n, e'⟩
      · have hts : containsBadList ts = true := by
          simpa [containsBadList, containsBad] using h
        obtain ⟨e, he⟩ := getFilesLoop_bad ts p
          (if matchesAllowlist n then acc ++ [pjoin p n] else acc) hts
        exact ⟨e, by simp [getFilesLoop, he]⟩
      · by_cases hct : containsBad (FsTree.dir n es') = true
        · obtain ⟨e, he⟩ := getFiles_bad (FsTree.dir n es') (pjoin p n) acc hct
          exact ⟨e, by simp [getFilesLoop, he]⟩
        · have hor : containsBad (FsTree.dir n es') = true ∨ containsBadList ts = true := by
            simpa [containsBadList] using h
          have hts : containsBadList ts = true := by
            rcases hor with h1 | h2
            · exact absurd h1 hct
            · exact h2
          cases hgf : getFiles (pjoin p n) (FsTree.dir n es') acc with
          | error e => exact ⟨e, by simp [getFilesLoop, hgf]⟩
          | ok fl =>
            obtain ⟨e, he⟩ := getFilesLoop_bad ts p fl hts
            exact ⟨e, by simp [getFilesLoop, hgf, he]⟩
      · exact ⟨e', by simp [getFilesLoop, getFiles]⟩
end

/-- C5 counterexample: a root holding one readable logo file and one
unreadable subdirectory. The claim says the failure is scoped to the
subtree and the run continues; in fact `getFiles` propagates the
`readdir` error, no file list (not even the readable sibling) is
produced, and the whole run exits via the fatal catch. -/
theorem C5_scan_counterexample :
    getFiles logosDir
        (FsTree.dir "football_logos"
          [FsTree.baddir "locked" ⟨"Error", "EACCES: permission denied"⟩,
           FsTree.file "Arsenal.svg"]) []
      = .error ⟨"Error", "EACCES: permission denied"⟩ ∧
    runProgram ⟨some "acct", some "key", some "secret", none, none⟩
        (FsTree.dir "football_logos"
          [FsTree.baddir "locked" ⟨"Error", "EACCES: permission denied"⟩,
           FsTree.file "Arsenal.svg"])
        (fun p => ⟨p, .ok "h", 0, none, none⟩) (fun _ => none)
      = .fatal ⟨"Error", "EACCES: permission denied"⟩ ∧
    exitCode (runProgram ⟨some "acct", some "key", some "secret", none, none⟩
        (FsTree.dir "football_logos"
          [FsTree.baddir "locked" ⟨"Error", "EACCES: permission denied"⟩,
           FsTree.file "Arsenal.svg"])
        (fun p => ⟨p, .ok "h", 0, none, none⟩) (fun _ => none)) = 1 := by
  have hscan : getFiles logosDir
      (FsTree.dir "football_logos"
        [FsTree.baddir "locked" ⟨"Error", "EACCES: permission denied"⟩,
         FsTree.file "Arsenal.svg"]) []
      = .error ⟨"Error", "EACCES: permission denied"⟩ := by
    simp [getFiles, getFilesLoop]
  have hval : validateConfig (mkConfig ⟨some "acct", some "key", some "secret", none, none⟩)
      = .ok () := by rfl
  have hrun : runProgram ⟨some "acct", some "key", some "secret", none, none⟩
      (FsTree.dir "football_logos"
        [FsTree.baddir "locked" ⟨"Error", "EACCES: permission denied"⟩,
         FsTree.file "Arsenal.svg"])
      (fun p => ⟨p, .ok "h", 0, none, none⟩) (fun _ => none)
      = .fatal ⟨"Error", "EACCES: permission denied"⟩ := by
    unfold runProgram
    rw [hval, hscan]
  exact ⟨hscan, hrun, by rw [hrun]; rfl⟩

/-- C5 as amended: an unreadable directory anywhere under the root is
not scoped to its subtree — it aborts the entire scan and the run: the
`readdir` error propagates out of `getFiles`, the orchestrator's
top-level catch reports it, no file is processed, and the process exits
non-zero. -/
theorem C5_scan_abort (env : Env) (root : FsTree) (mkSpec : String → FileSpec)
    (store : Store) (hcfg : missingKeys (mkConfig env) = [])
    (hbad : containsBad root = true) :
    ∃ e, runProgram env root mkSpec store = .fatal e ∧
      exitCode (runProgram env root mkSpec store) = 1 ∧
      resultOps (runProgram env root mkSpec store) = [] := by
  have hval : validateConfig (mkConfig env) = .ok () := by
    unfold validateConfig
    rw [hcfg]
    rfl
  obtain ⟨e, he⟩ := getFiles_bad root logosDir [] hbad
  have hrun : runProgram env root mkSpec store = .fatal e := by
    unfold runProgram
    rw [hval, he]
  exact ⟨e, hrun, by rw [hrun]; rfl, by rw [hrun]; rfl⟩

/-- Witness for the amended C5: valid credentials, a root with an
unreadable subdirectory next to a readable file. -/
theorem C5_scan_abort_witness :
    missingKeys (mkConfig ⟨some "acct", some "key", some "secret", none, none⟩) = [] ∧
    containsBad (FsTree.dir "football_logos"
      [FsTree.baddir "locked" ⟨"Error", "read error"⟩, FsTree.file "Chelsea.svg"]) = true ∧
    (∃ e, runProgram ⟨some "acct", some "key", some "secret", none, none⟩
        (FsTree.dir "football_logos"
          [FsTree.baddir "locked" ⟨"Error", "read error"⟩, FsTree.file "Chelsea.svg"])
        (fun p => ⟨p, .ok "h", 0, none, none⟩) (fun _ => none) = .fatal e ∧
      exitCode (runProgram ⟨some "acct", some "key", some "secret", none, none⟩
        (FsTree.dir "football_logos"
          [FsTree.baddir "locked" ⟨"Error", "read error"⟩, FsTree.file "Chelsea.svg"])
        (fun p => ⟨p, .ok "h", 0, none, none⟩) (fun _ => none)) = 1 ∧
      resultOps (runProgram ⟨some "acct", some "key", some "secret", none, none⟩
        (FsTree.dir "football_logos"
          [FsTree.baddir "locked" ⟨"Error", "read error"⟩, FsTree.file "Chelsea.svg"])
        (fun p => ⟨p, .ok "h", 0, none, none⟩) (fun _ => none)) = []) :=
  ⟨by decide, by decide,
   C5_scan_abort ⟨some "acct", some "key", some "secret", none, none⟩
     (FsTree.dir "football_logos"
       [FsTree.baddir "locked" ⟨"Error", "read error"⟩, FsTree.file "Chelsea.svg"])
     (fun p => ⟨p, .ok "h", 0, none, none⟩) (fun _ => none) (by decide) (by decide)⟩
